import Mathlib

/-!
Verification of the codecosmos suggestion-and-safe-apply pipeline.

This file gives a shallow embedding, in Lean 4, of the parts of the
program that the checked properties speak about:

* the transactional multi-file apply engine of src/refactor.rs
  (plan parsing, backup collection, in-order application, rollback);
* the suggestion store and its context-aware ordering of
  src/suggest/mod.rs;
* the summary cache contract, the generation-dispatch logic, the
  single-file fix task, the ship tasks and the background-message
  handlers of src/main.rs.

The filesystem is modelled as an association list from paths to file
contents; fallible operations return Except values; background tasks
are modelled as pure functions from the results of their external calls
(git, model gateway, I/O oracles) to the trace of actions they perform
and the messages they send back to the control loop.

Modules of the repository that are referenced by src/main.rs but whose
current sources are not under src/ (the cache module, the diff module,
the context module, the workflow App state) are modelled from the
specification; every such definition carries a doc comment starting
with: Modelled from the spec. Everything else is translated directly
from the source files.
-/

/-- Repository-relative file path (PathBuf in the source). -/
abbrev FPath := String

/-- A filesystem snapshot: an association list mapping each existing
path to its content. Paths are unique by construction of the update
operations below. -/
abbrev Fs := List (FPath × String)

/-- Lookup in an association list keyed by paths (HashMap get /
List lookup in the source). -/
def alookup {b : Type} : List (FPath × b) → FPath → Option b
  | [], _ => none
  | (q, v) :: rest, p => if q = p then some v else alookup rest p

/-- Read a file (fs read_to_string): the content of the first entry
with this path, if any. -/
def fsRead (fs : Fs) (p : FPath) : Option String :=
  alookup fs p

/-- Test existence of a path (FPath exists). -/
def fsExists (fs : Fs) (p : FPath) : Bool :=
  (fsRead fs p).isSome

/-- Write a file (fs write): update the entry in place if the path
exists, otherwise append a new entry. -/
def fsWrite (fs : Fs) (p : FPath) (c : String) : Fs :=
  match fs with
  | [] => [(p, c)]
  | (q, d) :: rest => if q = p then (p, c) :: rest else (q, d) :: fsWrite rest p c

/-- Remove a file (fs remove_file): drop every entry with this path. -/
def fsRemove (fs : Fs) (p : FPath) : Fs :=
  match fs with
  | [] => []
  | (q, c) :: rest => if q = p then fsRemove rest p else (q, c) :: fsRemove rest p

/-- One line of a unified diff (enum DiffLine of the diff module; the
constructors are those used by src/refactor.rs preview_lines). -/
inductive DiffLine
  | add (s : String)
  | remove (s : String)
  | context (s : String)
deriving DecidableEq, Repr

/-- One hunk of a unified diff, with the old-range and new-range
start/count fields read by src/refactor.rs preview_lines. -/
structure Hunk where
  old_start : Nat
  old_count : Nat
  new_start : Nat
  new_count : Nat
  lines : List DiffLine
deriving DecidableEq, Repr

/-- A parsed unified diff (struct UnifiedDiff of the diff module): a
list of hunks. -/
structure UnifiedDiff where
  hunks : List Hunk
deriving DecidableEq, Repr

/-- A single file operation in a refactoring plan
(enum FileOperation, src/refactor.rs). -/
inductive FileOperation
  | create (path : String) (content : String)
  | modify (path : String) (diff : UnifiedDiff)
  | delete (path : String)
  | rename (src : String) (dst : String)
deriving DecidableEq, Repr

/-- A complete refactoring plan (struct RefactorPlan, src/refactor.rs). -/
structure RefactorPlan where
  description : String
  operations : List FileOperation
deriving DecidableEq, Repr

/-- Backup info for rollback (struct BackupEntry, src/refactor.rs):
original_content is none when the file did not previously exist. -/
structure BackupEntry where
  path : String
  original_content : Option String
deriving DecidableEq, Repr

/-- The backup-collection phase of apply_refactor_plan
(src/refactor.rs lines 234-283): snapshot the current content of every
file a plan operation will touch. Create records the current content
when the target already exists and none otherwise; Modify requires the
file to exist; Delete and Rename record the source only when it
exists. -/
def collectBackups (fs : Fs) : List FileOperation → Except String (List BackupEntry)
  | [] => .ok []
  | op :: rest =>
    match op with
    | .create p _ =>
      match collectBackups fs rest with
      | .error e => .error e
      | .ok bs => .ok ({ path := p, original_content := fsRead fs p } :: bs)
    | .modify p _ =>
      match fsRead fs p with
      | none => .error ("Failed to read " ++ p ++ " for backup: No such file or directory")
      | some c =>
        match collectBackups fs rest with
        | .error e => .error e
        | .ok bs => .ok ({ path := p, original_content := some c } :: bs)
    | .delete p =>
      match fsRead fs p with
      | none => collectBackups fs rest
      | some c =>
        match collectBackups fs rest with
        | .error e => .error e
        | .ok bs => .ok ({ path := p, original_content := some c } :: bs)
    | .rename s _ =>
      match fsRead fs s with
      | none => collectBackups fs rest
      | some c =>
        match collectBackups fs rest with
        | .error e => .error e
        | .ok bs => .ok ({ path := s, original_content := some c } :: bs)

/-- Apply one file operation (the loop body of apply_operations,
src/refactor.rs lines 297-340). The diff module is not under src/, so
diff application to file content is a parameter applyDiff; the
read-apply-write shape around it follows the spec (section 4.3).
Create writes the new content; Modify reads the file, applies the
diff to its content and writes the result; Delete removes the file if
present; Rename fails when the source is missing and otherwise moves
the content. -/
def applyOp (applyDiff : UnifiedDiff → String → Except String String)
    (fs : Fs) : FileOperation → Except String Fs
  | .create p c => .ok (fsWrite fs p c)
  | .modify p d =>
    match fsRead fs p with
    | none => .error ("Failed to read " ++ p ++ ": No such file or directory")
    | some c =>
      match applyDiff d c with
      | .error e => .error e
      | .ok c2 => .ok (fsWrite fs p c2)
  | .delete p => .ok (if fsExists fs p then fsRemove fs p else fs)
  | .rename s t =>
    match fsRead fs s with
    | none => .error ("Failed to rename " ++ s ++ " to " ++ t ++ ": No such file or directory")
    | some c => .ok (fsWrite (fsRemove fs s) t c)

/-- The apply phase of apply_refactor_plan (fn apply_operations,
src/refactor.rs): operations execute strictly in list order; on the
first failure the filesystem reached so far is returned together with
the error. -/
def applyOperations (applyDiff : UnifiedDiff → String → Except String String)
    (fs : Fs) : List FileOperation → Fs × Option String
  | [] => (fs, none)
  | op :: rest =>
    match applyOp applyDiff fs op with
    | .error e => (fs, some e)
    | .ok fs2 => applyOperations applyDiff fs2 rest

/-- Restore a single backup entry (the match arm inside fn rollback,
src/refactor.rs lines 345-354): write back the original content, or
remove the file when it did not previously exist. -/
def restoreBackup (fs : Fs) (b : BackupEntry) : Fs :=
  match b.original_content with
  | some c => fsWrite fs b.path c
  | none => fsRemove fs b.path

/-- Rollback loop body over the already-reversed backup list. The
oracle models I/O failure of an individual restore attempt (the
source discards each attempt result with a let _ binding); index i
numbers the attempts. The returned list records the path of every
attempted entry in attempt order. -/
def rollbackAux (oracle : Nat → Bool) (fs : Fs) (i : Nat) :
    List BackupEntry → Fs × List FPath
  | [] => (fs, [])
  | b :: rest =>
    let fs2 := if oracle i then restoreBackup fs b else fs
    let r := rollbackAux oracle fs2 (i + 1) rest
    (r.1, b.path :: r.2)

/-- Rollback (fn rollback, src/refactor.rs lines 342-356): iterate over
the backups in reverse order, attempting every entry; the result of
each individual restore is discarded, and nothing is reported. -/
def rollback (oracle : Nat → Bool) (fs : Fs) (backups : List BackupEntry) :
    Fs × List FPath :=
  rollbackAux oracle fs 0 backups.reverse

/-- The oracle under which every restore attempt succeeds. -/
def oracleAll : Nat → Bool := fun _ => true

/-- Apply a refactoring plan with rollback support
(fn apply_refactor_plan, src/refactor.rs lines 230-295): collect
backups for every operation, apply the operations in order, and on
any operation failure run rollback over the captured backups and
return the error. Returns the outcome together with the final
filesystem. -/
def apply_refactor_plan (applyDiff : UnifiedDiff → String → Except String String)
    (oracle : Nat → Bool) (fs : Fs) (plan : RefactorPlan) :
    Except String Unit × Fs :=
  match collectBackups fs plan.operations with
  | .error e => (.error e, fs)
  | .ok backups =>
    match applyOperations applyDiff fs plan.operations with
    | (fs2, none) => (.ok (), fs2)
    | (fs2, some e) =>
      (.error ("Refactoring failed, rolled back: " ++ e),
       (rollback oracle fs2 backups).1)

/-- Pending operation while parsing a multi-file diff
(enum PendingOp, src/refactor.rs). -/
inductive PendingOp
  | create (path : String)
  | modify (path : String)
deriving DecidableEq, Repr

/-- Finalize a pending operation (fn finalize_op, src/refactor.rs
lines 208-220); pd is the parser of the missing diff module
(parse_unified_diff), taken as a parameter. -/
def finalize_op (pd : String → Except String UnifiedDiff)
    (op : PendingOp) (lines : List String) : Except String FileOperation :=
  match op with
  | .create p => .ok (.create p (String.intercalate "\n" lines))
  | .modify p =>
    match pd (String.intercalate "\n" lines) with
    | .error e => .error e
    | .ok d => .ok (.modify p d)

/-- Computable test that pat is a prefix of s (str starts_with),
written over the character lists so that it evaluates inside the
kernel. -/
def strStartsWith (s pat : String) : Bool :=
  pat.toList.isPrefixOf s.toList

/-- Computable test that pat is a suffix of s (str ends_with). -/
def strEndsWith (s pat : String) : Bool :=
  pat.toList.isSuffixOf s.toList

/-- Split a character list at every occurrence of a single character
(the separators are dropped; n separators yield n+1 segments). -/
def splitOnCharGen (c : Char) : List Char → List (List Char)
  | [] => [[]]
  | x :: xs =>
    match splitOnCharGen c xs with
    | [] => [[]]
    | y :: ys => if x = c then [] :: y :: ys else (x :: y) :: ys

/-- Split a character list at the first occurrence of a separator
sequence (str split_once). -/
def splitOnceList (sep : List Char) : List Char → Option (List Char × List Char)
  | [] => none
  | x :: xs =>
    if sep.isPrefixOf (x :: xs) then some ([], (x :: xs).drop sep.length)
    else
      match splitOnceList sep xs with
      | some r => some (x :: r.1, r.2)
      | none => none

/-- Fuel-driven repeated strip of a leading pattern
(str trim_start_matches). The fuel, set to the string length by
trim_start_matches below, bounds the number of repetitions, which is
enough because each successful strip removes at least one character. -/
def trimStartMatchesFuel (pat : String) : Nat → String → String
  | 0, s => s
  | n + 1, s =>
    if !pat.isEmpty && strStartsWith s pat then
      trimStartMatchesFuel pat n (s.drop pat.length)
    else s

/-- Repeatedly strip a leading pattern (str trim_start_matches). -/
def trim_start_matches (s pat : String) : String :=
  trimStartMatchesFuel pat s.length s

/-- Fuel-driven repeated strip of a trailing pattern
(str trim_end_matches). -/
def trimEndMatchesFuel (pat : String) : Nat → String → String
  | 0, s => s
  | n + 1, s =>
    if !pat.isEmpty && strEndsWith s pat then
      trimEndMatchesFuel pat n (s.dropRight pat.length)
    else s

/-- Repeatedly strip a trailing pattern (str trim_end_matches). -/
def trim_end_matches (s pat : String) : String :=
  trimEndMatchesFuel pat s.length s

/-- Split at the first occurrence of a separator (str split_once). -/
def split_once (s sep : String) : Option (String × String) :=
  match splitOnceList sep.toList s.toList with
  | some r => some (String.mk r.1, String.mk r.2)
  | none => none

/-- The lines of a string as Rust str lines produces them: split on
newline, without a final empty segment for a trailing newline. -/
def rustLines (s : String) : List String :=
  let parts := (splitOnCharGen (Char.ofNat 10) s.toList).map String.mk
  match parts.getLast? with
  | some "" => parts.dropLast
  | _ => parts

/-- Parser state of parse_multi_file_diff: the operations pushed so
far, the current pending operation and its accumulated content lines. -/
structure ParseState where
  ops : List FileOperation
  cur : Option PendingOp
  content : List String
deriving Repr

/-- Whether a line is recognized as one of the four operation headers
of the multi-file diff format. -/
def isOpHeaderLine (line : String) : Bool :=
  (strStartsWith line "=== CREATE " && strEndsWith line " ===") ||
  (strStartsWith line "=== MODIFY " && strEndsWith line " ===") ||
  (strStartsWith line "=== DELETE " && strEndsWith line " ===") ||
  (strStartsWith line "=== RENAME " && strEndsWith line " ===")

/-- One iteration of the line loop of parse_multi_file_diff
(src/refactor.rs lines 136-188). -/
def parseStep (pd : String → Except String UnifiedDiff)
    (st : ParseState) (line : String) : Except String ParseState :=
  if strStartsWith line "=== CREATE " && strEndsWith line " ===" then
    match st.cur with
    | some op =>
      match finalize_op pd op st.content with
      | .error e => .error e
      | .ok fo =>
        let p := trim_end_matches (trim_start_matches line "=== CREATE ") " ==="
        .ok { ops := st.ops ++ [fo], cur := some (.create p), content := [] }
    | none =>
      let p := trim_end_matches (trim_start_matches line "=== CREATE ") " ==="
      .ok { st with cur := some (.create p), content := st.content }
  else if strStartsWith line "=== MODIFY " && strEndsWith line " ===" then
    match st.cur with
    | some op =>
      match finalize_op pd op st.content with
      | .error e => .error e
      | .ok fo =>
        let p := trim_end_matches (trim_start_matches line "=== MODIFY ") " ==="
        .ok { ops := st.ops ++ [fo], cur := some (.modify p), content := [] }
    | none =>
      let p := trim_end_matches (trim_start_matches line "=== MODIFY ") " ==="
      .ok { st with cur := some (.modify p), content := st.content }
  else if strStartsWith line "=== DELETE " && strEndsWith line " ===" then
    match st.cur with
    | some op =>
      match finalize_op pd op st.content with
      | .error e => .error e
      | .ok fo =>
        let p := trim_end_matches (trim_start_matches line "=== DELETE ") " ==="
        .ok { ops := st.ops ++ [fo, .delete p], cur := none, content := [] }
    | none =>
      let p := trim_end_matches (trim_start_matches line "=== DELETE ") " ==="
      .ok { ops := st.ops ++ [.delete p], cur := none, content := st.content }
  else if strStartsWith line "=== RENAME " && strEndsWith line " ===" then
    let renamePart := trim_end_matches (trim_start_matches line "=== RENAME ") " ==="
    let renOps :=
      match split_once renamePart " -> " with
      | some (f, t) => [FileOperation.rename f t]
      | none => []
    match st.cur with
    | some op =>
      match finalize_op pd op st.content with
      | .error e => .error e
      | .ok fo => .ok { ops := st.ops ++ [fo] ++ renOps, cur := none, content := [] }
    | none => .ok { ops := st.ops ++ renOps, cur := none, content := st.content }
  else
    if st.cur.isSome then
      .ok { st with content := st.content ++ [line] }
    else
      .ok st

/-- The line loop of parse_multi_file_diff over a list of lines. -/
def parseLinesLoop (pd : String → Except String UnifiedDiff)
    (st : ParseState) : List String → Except String ParseState
  | [] => .ok st
  | l :: rest =>
    match parseStep pd st l with
    | .error e => .error e
    | .ok st2 => parseLinesLoop pd st2 rest

/-- Parse model output in multi-file diff format into a RefactorPlan
(fn parse_multi_file_diff, src/refactor.rs lines 131-200): run the
line loop, finalize a trailing pending operation, and reject a plan
with no operations. -/
def parse_multi_file_diff (pd : String → Except String UnifiedDiff)
    (input : String) : Except String RefactorPlan :=
  match parseLinesLoop pd { ops := [], cur := none, content := [] } (rustLines input) with
  | .error e => .error e
  | .ok st =>
    match st.cur with
    | some op =>
      match finalize_op pd op st.content with
      | .error e => .error e
      | .ok fo =>
        let ops := st.ops ++ [fo]
        if ops.isEmpty then .error "No operations found in refactoring plan"
        else .ok { description := "AI-generated refactoring plan", operations := ops }
    | none =>
      if st.ops.isEmpty then .error "No operations found in refactoring plan"
      else .ok { description := "AI-generated refactoring plan", operations := st.ops }

/-- Kind of suggestion (enum SuggestionKind, src/suggest/mod.rs). -/
inductive SuggestionKind
  | improvement
  | bugFix
  | feature
  | optimization
  | quality
  | documentation
  | testing
  | refactoring
deriving DecidableEq, Repr

/-- Priority level (enum Priority, src/suggest/mod.rs); the derived
Rust Ord follows declaration order Low < Medium < High, captured by
toNat below. -/
inductive Priority
  | low
  | medium
  | high
deriving DecidableEq, Repr

/-- Rank of a priority according to the derived Rust Ord instance
(declaration order). -/
def Priority.toNat : Priority → Nat
  | .low => 0
  | .medium => 1
  | .high => 2

/-- A suggestion record (struct Suggestion, src/suggest/mod.rs), with
the fields the ordering and lifecycle operations read. Timestamps are
Nat ticks; identifiers are Nat. -/
structure Suggestion where
  id : Nat
  kind : SuggestionKind
  priority : Priority
  file : FPath
  additional_files : List FPath := []
  line : Option Nat := none
  summary : String := ""
  created_at : Nat
  dismissed : Bool := false
  applied : Bool := false
deriving DecidableEq, Repr

/-- The suggestion engine (struct SuggestionEngine, src/suggest/mod.rs);
the index is carried separately by the functions that need it. -/
structure SuggestionEngine where
  suggestions : List Suggestion
deriving DecidableEq, Repr

/-- Active suggestions (fn active_suggestions, src/suggest/mod.rs lines
228-233): the suggestions whose dismissed and applied flags are both
false, in stored order. -/
def active_suggestions (e : SuggestionEngine) : List Suggestion :=
  e.suggestions.filter (fun s => !s.dismissed && !s.applied)

/-- Modelled from the spec: the per-file used-by and depends-on edge
sets consumed from the Indexer collaborator (spec section 6); the
current src/index/mod.rs does not carry the summary field that
src/suggest/mod.rs sort_with_context reads. -/
structure FileEdgeSummary where
  used_by : List FPath
  depends_on : List FPath
deriving Repr

/-- The slice of the codebase index that sort_with_context reads: the
per-file edge summaries keyed by path. -/
structure CodebaseIndex where
  files : List (FPath × FileEdgeSummary)
deriving Repr

/-- Modelled from the spec: the version-control work context (the
context module is not under src/); all_changed_files returns the set
of modified and staged paths (spec section 6). -/
structure WorkContext where
  changed_files : List FPath
deriving Repr

/-- The set of changed files consulted by sort_with_context
(context.all_changed_files collected into a set; membership below is
list membership). -/
def all_changed_files (ctx : WorkContext) : List FPath :=
  ctx.changed_files

/-- Blast-radius computation of sort_with_context (src/suggest/mod.rs
lines 293-307): every used_by or depends_on neighbour of a changed
file that is present in the index, with the changed files themselves
removed. -/
def blast_set (idx : CodebaseIndex) (changed : List FPath) : List FPath :=
  (changed.foldr
    (fun c acc =>
      match alookup idx.files c with
      | some fi => fi.used_by ++ fi.depends_on ++ acc
      | none => acc)
    []).filter (fun p => !(changed.contains p))

/-- Per-kind tie-break weight of sort_with_context (the kind_weight
closure, src/suggest/mod.rs lines 309-320). -/
def kind_weight : SuggestionKind → Int
  | .bugFix => 40
  | .refactoring => 30
  | .optimization => 25
  | .testing => 20
  | .quality => 15
  | .documentation => 10
  | .improvement => 10
  | .feature => 0

/-- The comparator of sort_with_context (src/suggest/mod.rs lines
322-349), written exactly as the source chain of early returns:
changed files first, then blast radius, then higher priority, then
kind weight, then newest creation time. -/
def cmp_suggestion (changed blast : List FPath) (a b : Suggestion) : Ordering :=
  let aChanged := changed.contains a.file
  let bChanged := changed.contains b.file
  if aChanged != bChanged then compare bChanged aChanged
  else
    let aBlast := blast.contains a.file
    let bBlast := blast.contains b.file
    if aBlast != bBlast then compare bBlast aBlast
    else
      let pri := compare b.priority.toNat a.priority.toNat
      if pri ≠ Ordering.eq then pri
      else
        let kw := compare (kind_weight b.kind) (kind_weight a.kind)
        if kw ≠ Ordering.eq then kw
        else compare b.created_at a.created_at

/-- Stable insertion step: move past strictly smaller-ranked earlier
elements only, so that ties keep the original relative order, matching
the stability guarantee of Vec sort_by. -/
def insertSortedBy (cmp : Suggestion → Suggestion → Ordering)
    (x : Suggestion) : List Suggestion → List Suggestion
  | [] => [x]
  | y :: ys =>
    if cmp x y = Ordering.gt then y :: insertSortedBy cmp x ys
    else x :: y :: ys

/-- Stable sort by a comparator (Vec sort_by). -/
def sortByStable (cmp : Suggestion → Suggestion → Ordering) :
    List Suggestion → List Suggestion
  | [] => []
  | x :: xs => insertSortedBy cmp x (sortByStable cmp xs)

/-- Context-aware ordering (fn sort_with_context, src/suggest/mod.rs
lines 286-350): compute the changed set and its blast radius, then
stably sort the suggestion list by cmp_suggestion. -/
def sort_with_context (ctx : WorkContext) (idx : CodebaseIndex)
    (e : SuggestionEngine) : SuggestionEngine :=
  let changed := all_changed_files ctx
  let blast := blast_set idx changed
  { suggestions := sortByStable (cmp_suggestion changed blast) e.suggestions }

/-- The per-kind ranking exactly as claim C2 states it: BugFix highest,
then Refactoring, Optimization, Testing, then Quality, Documentation
and Improvement together at one level, Feature lowest. -/
def claim_kind_rank : SuggestionKind → Nat
  | .bugFix => 5
  | .refactoring => 4
  | .optimization => 3
  | .testing => 2
  | .quality => 1
  | .documentation => 1
  | .improvement => 1
  | .feature => 0

/-- The per-kind ranking the code actually implements, with Quality on
its own level strictly above Documentation and Improvement. -/
def amended_kind_rank : SuggestionKind → Nat
  | .bugFix => 6
  | .refactoring => 5
  | .optimization => 4
  | .testing => 3
  | .quality => 2
  | .documentation => 1
  | .improvement => 1
  | .feature => 0

/-- Lexicographic comparator built from the five keys of claim C2,
parameterized by the kind ranking: (1) changed files first, (2) blast
radius first, (3) higher priority first, (4) higher kind rank first,
(5) most recently created first. -/
def lex_keys_cmp (rank : SuggestionKind → Nat)
    (changed blast : List FPath) (a b : Suggestion) : Ordering :=
  (compare (changed.contains b.file) (changed.contains a.file)).then
    ((compare (blast.contains b.file) (blast.contains a.file)).then
      ((compare b.priority.toNat a.priority.toNat).then
        ((compare (rank b.kind) (rank a.kind)).then
          (compare b.created_at a.created_at))))

/-- The ordering claim C2 states, keys applied most significant first
with the claimed kind grouping. -/
def claim_order_cmp (changed blast : List FPath) (a b : Suggestion) : Ordering :=
  lex_keys_cmp claim_kind_rank changed blast a b

/-- The ordering amended to the kind weights of the source. -/
def amended_order_cmp (changed blast : List FPath) (a b : Suggestion) : Ordering :=
  lex_keys_cmp amended_kind_rank changed blast a b

/-- Modelled from the spec: one cache entry of the content-hash summary
cache (the cache module is not under src/): summary text, the content
fingerprint it was computed against, and a timestamp (spec section 3). -/
structure SummaryEntry where
  summary : String
  content_hash : String
  generated_at : Nat := 0
deriving DecidableEq, Repr

/-- Modelled from the spec: the per-file summary cache, keyed by path. -/
abbrev LlmSummaryCache := List (FPath × SummaryEntry)

/-- The current content fingerprints, one per indexed file
(compute_file_hashes). -/
abbrev FileHashes := List (FPath × String)

/-- Modelled from the spec: needsRegeneration compares the stored entry
fingerprint against the current fingerprint for equality (spec section
4.1); a missing entry needs generation. -/
def needs_regeneration (cache : LlmSummaryCache) (p : FPath) (h : String) : Bool :=
  match alookup cache p with
  | some e => !(e.content_hash == h)
  | none => true

/-- Modelled from the spec: validSummaries returns every entry whose
stored fingerprint still matches the current fingerprint of its path
(get_all_valid_summaries in src/main.rs line 325). -/
def get_all_valid_summaries (cache : LlmSummaryCache) (hashes : FileHashes) :
    List (FPath × String) :=
  cache.filterMap (fun pe =>
    match alookup hashes pe.1 with
    | some h => if pe.2.content_hash == h then some (pe.1, pe.2.summary) else none
    | none => none)

/-- Modelled from the spec: the files whose current fingerprint does
not match their cached entry and that therefore need (re)generation
(get_files_needing_summary in src/main.rs line 339). -/
def get_files_needing_summary (cache : LlmSummaryCache) (hashes : FileHashes) :
    List FPath :=
  hashes.filterMap (fun ph =>
    if needs_regeneration cache ph.1 ph.2 then some ph.1 else none)

/-- Modelled from the spec: set upserts a summary with its fingerprint
(spec section 4.1). -/
def set_summary (cache : LlmSummaryCache) (p : FPath) (s : String) (h : String) :
    LlmSummaryCache :=
  match cache with
  | [] => [(p, { summary := s, content_hash := h })]
  | (q, e) :: rest =>
    if q = p then (p, { summary := s, content_hash := h }) :: rest
    else (q, e) :: set_summary rest p s h

/-- The set of files handed to summary generation at startup
(src/main.rs lines 339-404): the files needing summaries, optionally
restricted to the changed files and their immediate blast radius when
summarize_changed_only is set; the spawned task then partitions this
set into priority tiers and batches. -/
def startup_generation_files (cache : LlmSummaryCache) (hashes : FileHashes)
    (summarizeChangedOnly : Bool) (wanted : List FPath) : List FPath :=
  let needing := get_files_needing_summary cache hashes
  if summarizeChangedOnly then needing.filter (fun p => wanted.contains p)
  else needing

/-- Background task kinds dispatched by the generation scheduling
logic of src/main.rs: the batch summary task and the suggestion
(analyze_codebase) task. -/
inductive SpawnedTask
  | summaryGen
  | suggestionGen
deriving DecidableEq, Repr

/-- Startup dispatch (run_tui, src/main.rs lines 381-527): with AI
enabled and files needing summaries, set pending_suggestions_on_init
and spawn only the summary task; with no files needing summaries spawn
the suggestion task directly; with AI disabled spawn nothing. Returns
the pending flag assignment and the tasks spawned. -/
def startup_dispatch (aiEnabled : Bool) (files_needing_summary : List FPath) :
    Bool × List SpawnedTask :=
  if aiEnabled then
    if !files_needing_summary.isEmpty then (true, [.summaryGen])
    else (false, [.suggestionGen])
  else (false, [])

/-- Reset dispatch (the reset handler of run_loop, src/main.rs lines
1934-2070): when summaries were reset and AI is enabled and there are
files to process, spawn the summary task and set the pending flag only
when suggestions were also reset; when only suggestions were reset,
spawn the suggestion task directly. -/
def reset_dispatch (needsSummaries needsSuggestions aiEnabled : Bool)
    (totalToProcess : Nat) : Bool × List SpawnedTask :=
  if needsSummaries && aiEnabled then
    if totalToProcess > 0 then (needsSuggestions, [.summaryGen])
    else (false, [])
  else if needsSuggestions && aiEnabled then (false, [.suggestionGen])
  else (false, [])

/-- SummariesReady dispatch (the SummariesReady handler of run_loop,
src/main.rs lines 634-682): when the pending flag is set it is
cleared, and the suggestion task is spawned if AI is still enabled;
otherwise nothing is spawned. Returns the new flag value and the tasks
spawned. -/
def summaries_ready_dispatch (pending aiStillEnabled : Bool) :
    Bool × List SpawnedTask :=
  if pending then
    if aiStillEnabled then (false, [.suggestionGen]) else (false, [])
  else (pending, [])

/-- Replace the extension of a path with cosmos.bak
(full_path.with_extension in src/main.rs lines 1288 and 2352): the
part after the last dot is replaced, or the suffix appended when the
path has no dot. -/
def withExtensionCosmosBak (p : FPath) : FPath :=
  let parts := (splitOnCharGen (Char.ofNat 46) p.toList).map String.mk
  if parts.length ≥ 2 then
    String.intercalate "." parts.dropLast ++ ".cosmos.bak"
  else p ++ ".cosmos.bak"

/-- Actions performed by the single-file fix apply task, in order. -/
inductive FixEvent
  | backupCopy (src dst : FPath)
  | writeTarget (p : FPath)
  | stageFile (p : FPath)
  | restoreFromBackup (backup target : FPath)
  | removeBackup (p : FPath)
deriving DecidableEq, Repr

/-- The message the single-file fix apply task sends back
(DirectFixApplied or DirectFixError in src/main.rs). -/
inductive FixResultMsg
  | directFixApplied (file backup : FPath)
  | directFixError (msg : String)
deriving DecidableEq, Repr

/-- The backup-write-stage portion of the single-file fix apply task
(src/main.rs lines 1286-1323 and its twin 2350-2383): copy the
original to the sibling cosmos.bak path, write the new content, stage
only after a successful write; on write failure copy the backup back
over the target, remove the backup and report an error. copyOk and
writeOk are oracles for I/O failure of the backup copy and of the
write; a failed write leaves the target content unchanged before the
restore runs. Returns the final filesystem, the trace of performed
actions, and the message sent. -/
def apply_single_fix (fs : Fs) (target : FPath) (newContent : String)
    (copyOk writeOk : Bool) : Fs × List FixEvent × FixResultMsg :=
  let backup := withExtensionCosmosBak target
  match fsRead fs target with
  | none => (fs, [], .directFixError "Failed to create backup: No such file or directory")
  | some orig =>
    if !copyOk then (fs, [], .directFixError "Failed to create backup: I/O error")
    else
      let fs1 := fsWrite fs backup orig
      if writeOk then
        let fs2 := fsWrite fs1 target newContent
        (fs2, [.backupCopy target backup, .writeTarget target, .stageFile target],
         .directFixApplied target backup)
      else
        let fs2 := fsWrite fs1 target orig
        let fs3 := fsRemove fs2 backup
        (fs3, [.backupCopy target backup, .writeTarget target,
               .restoreFromBackup backup target, .removeBackup backup],
         .directFixError "Failed to write fix: I/O error")

/-- Ship sub-states (enum ShipStep of the ui module, as used by
src/main.rs). -/
inductive ShipStep
  | confirm
  | committing
  | pushing
  | creatingPR
  | done
deriving DecidableEq, Repr

/-- Version-control operations invoked by the ship tasks. -/
inductive GitCall
  | stage (p : FPath)
  | commit
  | push
  | createPR
deriving DecidableEq, Repr

/-- Messages a ship task sends back to the control loop
(ShipProgress, ShipComplete, ShipError in src/main.rs). -/
inductive ShipMsg
  | progress (s : ShipStep)
  | complete (url : String)
  | error (msg : String)
deriving DecidableEq, Repr

/-- The workflow-mode ship task (run_loop WorkflowStep Ship confirm
branch, src/main.rs lines 2412-2447): announce Committing, commit,
announce Pushing, push, announce CreatingPR, create the PR; a failing
step sends ShipError with the raw error and stops. Inputs are the
results of the three git operations; outputs are the git calls made,
in order, and the messages sent, in order. -/
def ship_workflow_task (commitRes pushRes : Except String Unit)
    (prRes : Except String String) : List GitCall × List ShipMsg :=
  match commitRes with
  | .error e => ([.commit], [.progress .committing, .error e])
  | .ok _ =>
    match pushRes with
    | .error e => ([.commit, .push], [.progress .committing, .progress .pushing, .error e])
    | .ok _ =>
      match prRes with
      | .ok url =>
        ([.commit, .push, .createPR],
         [.progress .committing, .progress .pushing, .progress .creatingPR, .complete url])
      | .error e =>
        ([.commit, .push, .createPR],
         [.progress .committing, .progress .pushing, .progress .creatingPR, .error e])

/-- The staging loop of the legacy ship dialog task: stage each file in
order, stopping at the first failure. Returns the stage calls made and
the error, if any. -/
def ship_stage_loop : List (FPath × Except String Unit) → List GitCall × Option String
  | [] => ([], none)
  | (p, r) :: rest =>
    match r with
    | .error e => ([.stage p], some ("Stage failed: " ++ e))
    | .ok _ =>
      let t := ship_stage_loop rest
      (.stage p :: t.1, t.2)

/-- The legacy ship dialog task (run_loop ShipDialog confirm branch,
src/main.rs lines 1480-1537): stage all files, validate that something
is staged when the status query succeeds, commit, push, create the PR;
each failure sends a ShipError naming the stage, and a PR-creation
failure after a successful push tells the user to create the PR
manually. stagedNonempty is none when the status query itself failed
(the validation is skipped then). -/
def ship_dialog_task (stageResults : List (FPath × Except String Unit))
    (stagedNonempty : Option Bool) (commitRes pushRes : Except String Unit)
    (prRes : Except String String) : List GitCall × List ShipMsg :=
  let staged := ship_stage_loop stageResults
  match staged.2 with
  | some e => (staged.1, [.error e])
  | none =>
    if stagedNonempty = some false then
      (staged.1, [.error "No files staged - nothing to commit"])
    else
      match commitRes with
      | .error e => (staged.1 ++ [.commit], [.error ("Commit failed: " ++ e)])
      | .ok _ =>
        match pushRes with
        | .error e =>
          (staged.1 ++ [.commit, .push],
           [.progress .pushing, .error ("Push failed: " ++ e)])
        | .ok _ =>
          match prRes with
          | .ok url =>
            (staged.1 ++ [.commit, .push, .createPR],
             [.progress .pushing, .progress .creatingPR, .complete url])
          | .error e =>
            (staged.1 ++ [.commit, .push, .createPR],
             [.progress .pushing, .progress .creatingPR,
              .error ("Pushed, but PR creation failed: " ++ e ++ ". Create PR manually.")])

/-- Workflow stages (enum WorkflowStep of the ui module, as used by
src/main.rs). -/
inductive WorkflowStep
  | suggestions
  | verify
  | review
  | ship
deriving DecidableEq, Repr

/-- Verify-stage state (VerifyState of the ui module): the selected
suggestion and, once generated, its preview. -/
structure VerifyState where
  suggestion_id : Option Nat := none
  file_path : Option FPath := none
  summary : String := ""
  preview : Option String := none
deriving DecidableEq, Repr

/-- Review-stage state (ReviewState of the ui module): reviewer
findings for the applied change. -/
structure ReviewState where
  findings : List String := []
  summary : String := ""
  reviewing : Bool := false
deriving DecidableEq, Repr

/-- User-visible overlays relevant to the background-result handlers:
the legacy fix-preview overlay and the legacy verification-review
overlay (enum Overlay of the ui module, as used by src/main.rs). -/
inductive AppOverlay
  | noOverlay
  | fixPreview (suggestion_id : Nat) (file_path : FPath) (summary preview : String)
  | verificationReview (findings : List String) (summary : String) (reviewing : Bool)
deriving DecidableEq, Repr

/-- The slice of the App state read and written by the
background-result handlers of run_loop. -/
structure AppState where
  workflow_step : WorkflowStep
  verify_state : VerifyState := {}
  review_state : ReviewState := {}
  overlay : AppOverlay := .noOverlay
  toast : Option String := none
  loading : Bool := false
deriving DecidableEq, Repr

/-- Character-level model of fn truncate (src/main.rs lines 2570-2576). -/
def truncate (s : String) (max : Nat) : String :=
  if s.length ≤ max then s else s.take (max - 3) ++ "..."

/-- Modelled from the spec: set_verify_preview stores the generated
preview in the Verify-stage state (App method not under src/; the
Verify stage holds a generated preview, spec section 4.4). -/
def set_verify_preview (st : AppState) (preview : String) : AppState :=
  { st with verify_state := { st.verify_state with preview := some preview } }

/-- Modelled from the spec: show_fix_preview opens the legacy
fix-preview overlay with the given data (App method not under src/). -/
def show_fix_preview (st : AppState) (sid : Nat) (fp : FPath)
    (summary preview : String) : AppState :=
  { st with overlay := .fixPreview sid fp summary preview }

/-- Modelled from the spec: show_toast displays a one-line status
notification (spec section 7 propagation policy). -/
def show_toast (st : AppState) (m : String) : AppState :=
  { st with toast := some m }

/-- Modelled from the spec: set_review_findings stores the reviewer
findings in the Review-stage state (App method not under src/). -/
def set_review_findings (st : AppState) (findings : List String)
    (summary : String) : AppState :=
  { st with review_state := { findings := findings, summary := summary, reviewing := false } }

/-- Modelled from the spec: the legacy set_verification_findings
updates the verification-review overlay when it is open and does
nothing otherwise (App method not under src/). -/
def set_verification_findings (st : AppState) (findings : List String)
    (summary : String) : AppState :=
  match st.overlay with
  | .verificationReview _ _ _ =>
    { st with overlay := .verificationReview findings summary false }
  | _ => st

/-- The PreviewReady handler (run_loop, src/main.rs lines 709-718):
clear the loading state; when the workflow is in Verify install the
preview into the Verify state, otherwise show the legacy fix-preview
overlay. -/
def handle_preview_ready (st : AppState) (sid : Nat) (fp : FPath)
    (summary preview : String) : AppState :=
  let st1 := { st with loading := false }
  if st1.workflow_step = .verify then set_verify_preview st1 preview
  else show_fix_preview st1 sid fp summary preview

/-- The PreviewError handler (run_loop, src/main.rs lines 719-727):
clear the loading state; when the workflow is in Verify reset it to
Suggestions with a default Verify state; in every case show a toast
with the truncated error. -/
def handle_preview_error (st : AppState) (e : String) : AppState :=
  let st1 := { st with loading := false }
  let st2 :=
    if st1.workflow_step = .verify then
      { st1 with workflow_step := .suggestions, verify_state := {} }
    else st1
  show_toast st2 ("Preview error: " ++ truncate e 80)

/-- The VerificationComplete handler (run_loop, src/main.rs lines
859-873, cost tracking omitted): when the workflow is in Review store
the findings in the Review state, otherwise update the legacy
verification-review overlay. -/
def handle_verification_complete (st : AppState) (findings : List String)
    (summary : String) : AppState :=
  if st.workflow_step = .review then set_review_findings st findings summary
  else set_verification_findings st findings summary

theorem fsRead_fsWrite_self (fs : Fs) (p : FPath) (c : String) :
    fsRead (fsWrite fs p c) p = some c := by
  induction fs with
  | nil => simp [fsWrite, fsRead, alookup]
  | cons e rest ih =>
    obtain ⟨q, d⟩ := e
    by_cases h : q = p
    · subst h
      simp [fsWrite, fsRead, alookup]
    · simpa [fsWrite, fsRead, alookup, h] using ih

theorem fsRead_fsWrite_ne (fs : Fs) (p q : FPath) (c : String) (h : q ≠ p) :
    fsRead (fsWrite fs p c) q = fsRead fs q := by
  induction fs with
  | nil => simp [fsWrite, fsRead, alookup, Ne.symm h]
  | cons e rest ih =>
    obtain ⟨r, d⟩ := e
    by_cases hr : r = p
    · subst hr
      simp [fsWrite, fsRead, alookup, Ne.symm h]
    · by_cases hq : r = q
      · subst hq
        simp [fsWrite, fsRead, alookup, hr]
      · simpa [fsWrite, fsRead, alookup, hr, hq] using ih

theorem fsRead_fsRemove_self (fs : Fs) (p : FPath) :
    fsRead (fsRemove fs p) p = none := by
  induction fs with
  | nil => simp [fsRemove, fsRead, alookup]
  | cons e rest ih =>
    obtain ⟨q, d⟩ := e
    by_cases h : q = p
    · simpa [fsRemove, h] using ih
    · simpa [fsRemove, fsRead, alookup, h] using ih

theorem fsRead_fsRemove_ne (fs : Fs) (p q : FPath) (h : q ≠ p) :
    fsRead (fsRemove fs p) q = fsRead fs q := by
  induction fs with
  | nil => simp [fsRemove]
  | cons e rest ih =>
    obtain ⟨r, d⟩ := e
    by_cases hr : r = p
    · subst hr
      simpa [fsRemove, fsRead, alookup, Ne.symm h] using ih
    · by_cases hq : r = q
      · subst hq
        simp [fsRemove, fsRead, alookup, hr]
      · simpa [fsRemove, fsRead, alookup, hr, hq] using ih

/-- C8: active_suggestions returns exactly the suggestions whose
dismissed and applied flags are both false, in the stored order (it is
a sublist of the store), and never includes an entry with a flag set. -/
theorem active_suggestions_no_dismissed_no_applied :
    ∀ (e : SuggestionEngine),
      List.Sublist (active_suggestions e) e.suggestions ∧
      ∀ s, s ∈ active_suggestions e ↔
        s ∈ e.suggestions ∧ s.dismissed = false ∧ s.applied = false := by
  intro e
  constructor
  · exact List.filter_sublist e.suggestions
  · intro s
    simp [active_suggestions, List.mem_filter]

/-- C1: concrete run showing that a failing plan whose first operation
is a rename is not rolled back to the pre-plan state: applying the plan
[Rename a to b, Rename x to y] to a repository holding only file a
fails on the second operation and reports a rollback, yet the rename
destination b still exists afterwards while it did not exist before the
plan. -/
theorem apply_refactor_plan_rename_rollback_gap :
    (apply_refactor_plan (fun _ c => .ok c) oracleAll [("a", "A")]
      { description := "split",
        operations := [.rename "a" "b", .rename "x" "y"] }).1 =
      .error "Refactoring failed, rolled back: Failed to rename x to y: No such file or directory" ∧
    fsRead (apply_refactor_plan (fun _ c => .ok c) oracleAll [("a", "A")]
      { description := "split",
        operations := [.rename "a" "b", .rename "x" "y"] }).2 "b" = some "A" ∧
    fsRead (apply_refactor_plan (fun _ c => .ok c) oracleAll [("a", "A")]
      { description := "split",
        operations := [.rename "a" "b", .rename "x" "y"] }).2 "a" = some "A" ∧
    fsRead [("a", "A")] "b" = none :=
  ⟨rfl, rfl, rfl, rfl⟩

/-- C3 counterexample: a failed restore during rollback is not
surfaced. The plan [Create a, Rename x to y] over a repository holding
a fails and rolls back; under an oracle that makes the single restore
attempt fail, the returned outcome is identical to the one under the
always-succeeding oracle, even though the repository content differs
(a keeps the new content instead of being restored), so the partial
rollback failure is reported nowhere. -/
theorem rollback_failure_not_surfaced :
    (apply_refactor_plan (fun _ c => .ok c) (fun i => i != 0) [("a", "A")]
      { description := "p",
        operations := [.create "a" "NEW", .rename "x" "y"] }).1 =
    (apply_refactor_plan (fun _ c => .ok c) oracleAll [("a", "A")]
      { description := "p",
        operations := [.create "a" "NEW", .rename "x" "y"] }).1 ∧
    fsRead (apply_refactor_plan (fun _ c => .ok c) (fun i => i != 0) [("a", "A")]
      { description := "p",
        operations := [.create "a" "NEW", .rename "x" "y"] }).2 "a" = some "NEW" ∧
    fsRead (apply_refactor_plan (fun _ c => .ok c) oracleAll [("a", "A")]
      { description := "p",
        operations := [.create "a" "NEW", .rename "x" "y"] }).2 "a" = some "A" :=
  ⟨rfl, rfl, rfl⟩

theorem rollbackAux_attempts_all (oracle : Nat → Bool) :
    ∀ (entries : List BackupEntry) (fs : Fs) (i : Nat),
      (rollbackAux oracle fs i entries).2 = entries.map BackupEntry.path := by
  intro entries
  induction entries with
  | nil => intro fs i; simp [rollbackAux]
  | cons b rest ih =>
    intro fs i
    simp [rollbackAux, ih]

/-- C3 amended: rollback walks the captured backups in reverse order
and attempts every entry no matter which individual restore attempts
fail (the attempted list never depends on the oracle and is always the
full reversed backup list), and the outcome reported by
apply_refactor_plan is identical whether or not restores fail:
restoration failures are silently swallowed, not individually
surfaced. -/
theorem rollback_reverse_best_effort_silent :
    ∀ (oracle : Nat → Bool) (fs : Fs) (backups : List BackupEntry),
      (rollback oracle fs backups).2 = (backups.map BackupEntry.path).reverse ∧
      ∀ (applyDiff : UnifiedDiff → String → Except String String) (plan : RefactorPlan),
        (apply_refactor_plan applyDiff oracle fs plan).1 =
        (apply_refactor_plan applyDiff oracleAll fs plan).1 := by
  intro oracle fs backups
  constructor
  · rw [rollback, rollbackAux_attempts_all, List.map_reverse]
  · intro applyDiff plan
    unfold apply_refactor_plan
    cases hcb : collectBackups fs plan.operations with
    | error e => simp
    | ok bs =>
      rcases happ : applyOperations applyDiff fs plan.operations with ⟨fs2, err⟩
      cases err <;> simp

theorem ordering_ite_then (o r : Ordering) :
    (if o ≠ Ordering.eq then o else r) = o.then r := by
  cases o <;> simp [Ordering.then]

theorem bool_cmp_ite_then (a b : Bool) (r : Ordering) :
    (if (a != b) = true then compare b a else r) = (compare b a).then r := by
  cases a <;> cases b <;> simp [Ordering.then, compare, compareOfLessAndEq]

theorem kind_weight_cmp_eq_amended_rank (x y : SuggestionKind) :
    compare (kind_weight x) (kind_weight y) =
      compare (amended_kind_rank x) (amended_kind_rank y) := by
  cases x <;> cases y <;> rfl

/-- C2 amended: every pair compared by sort_with_context is ordered by
the lexicographic keys the claim lists, with the per-kind ranking fixed
to the one the source implements: BugFix, then Refactoring, then
Optimization, then Testing, then Quality strictly above Documentation
and Improvement (which tie), then Feature; and sort_with_context is
exactly the stable sort of the store by those keys over the changed
set and its blast radius. -/
theorem sort_with_context_key_order :
    (∀ (changed blast : List FPath) (a b : Suggestion),
      cmp_suggestion changed blast a b = amended_order_cmp changed blast a b) ∧
    ∀ (ctx : WorkContext) (idx : CodebaseIndex) (e : SuggestionEngine),
      (sort_with_context ctx idx e).suggestions =
        sortByStable
          (amended_order_cmp (all_changed_files ctx)
            (blast_set idx (all_changed_files ctx)))
          e.suggestions := by
  have hcmp : ∀ (changed blast : List FPath) (a b : Suggestion),
      cmp_suggestion changed blast a b = amended_order_cmp changed blast a b := by
    intro changed blast a b
    simp only [cmp_suggestion, amended_order_cmp, lex_keys_cmp,
      bool_cmp_ite_then, ordering_ite_then, kind_weight_cmp_eq_amended_rank]
  refine ⟨hcmp, ?_⟩
  intro ctx idx e
  have h : cmp_suggestion (all_changed_files ctx) (blast_set idx (all_changed_files ctx)) =
      amended_order_cmp (all_changed_files ctx) (blast_set idx (all_changed_files ctx)) :=
    funext fun a => funext fun b => hcmp _ _ a b
  simp [sort_with_context, h]

/-- C2 counterexample: with no version-control changes, a Quality
suggestion created earlier sorts strictly before a Documentation
suggestion of equal priority created later (the source weights Quality
15 and Documentation 10), while the claimed key order, which puts
Quality, Documentation and Improvement at one weight level and then
prefers the most recently created, orders them the other way around. -/
theorem sort_with_context_kind_grouping_cex :
    cmp_suggestion [] []
      { id := 1, kind := .quality, priority := .medium, file := "x.rs", created_at := 0 }
      { id := 2, kind := .documentation, priority := .medium, file := "y.rs", created_at := 1 }
      = Ordering.lt ∧
    claim_order_cmp [] []
      { id := 1, kind := .quality, priority := .medium, file := "x.rs", created_at := 0 }
      { id := 2, kind := .documentation, priority := .medium, file := "y.rs", created_at := 1 }
      = Ordering.gt ∧
    (sort_with_context { changed_files := [] } { files := [] }
      { suggestions :=
        [{ id := 2, kind := .documentation, priority := .medium, file := "y.rs", created_at := 1 },
         { id := 1, kind := .quality, priority := .medium, file := "x.rs", created_at := 0 }] }).suggestions =
      [{ id := 1, kind := .quality, priority := .medium, file := "x.rs", created_at := 0 },
       { id := 2, kind := .documentation, priority := .medium, file := "y.rs", created_at := 1 }] ∧
    sortByStable (claim_order_cmp [] [])
      [{ id := 2, kind := .documentation, priority := .medium, file := "y.rs", created_at := 1 },
       { id := 1, kind := .quality, priority := .medium, file := "x.rs", created_at := 0 }] =
      [{ id := 2, kind := .documentation, priority := .medium, file := "y.rs", created_at := 1 },
       { id := 1, kind := .quality, priority := .medium, file := "x.rs", created_at := 0 }] := by
  refine ⟨by decide, by decide, by decide, by decide⟩

theorem parseLinesLoop_no_header (pd : String → Except String UnifiedDiff) :
    ∀ (lines : List String) (st : ParseState),
      (∀ l ∈ lines, isOpHeaderLine l = false) → st.cur = none →
      parseLinesLoop pd st lines = .ok st := by
  intro lines
  induction lines with
  | nil => intro st _ _; rfl
  | cons l rest ih =>
    intro st hall hcur
    have hl : isOpHeaderLine l = false := hall l (by simp)
    simp only [isOpHeaderLine, Bool.or_eq_false_iff] at hl
    obtain ⟨⟨⟨h1, h2⟩, h3⟩, h4⟩ := hl
    have hstep : parseStep pd st l = .ok st := by
      unfold parseStep
      rw [h1, h2, h3, h4]
      simp [hcur]
    rw [parseLinesLoop, hstep]
    exact ih st (fun x hx => hall x (by simp [hx])) hcur

/-- C10: parse_multi_file_diff never yields an empty plan: every
successfully returned plan has at least one operation, and an input in
which no operation header line is recognized parses to exactly the
error No operations found in refactoring plan. -/
theorem parse_multi_file_diff_never_empty :
    ∀ (pd : String → Except String UnifiedDiff) (input : String),
      (∀ plan, parse_multi_file_diff pd input = .ok plan → plan.operations ≠ []) ∧
      ((∀ l ∈ rustLines input, isOpHeaderLine l = false) →
        parse_multi_file_diff pd input = .error "No operations found in refactoring plan") := by
  intro pd input
  constructor
  · intro plan h
    unfold parse_multi_file_diff at h
    cases hl : parseLinesLoop pd { ops := [], cur := none, content := [] } (rustLines input) with
    | error e => rw [hl] at h; exact absurd h (by simp)
    | ok st =>
      rw [hl] at h
      dsimp only at h
      cases hc : st.cur with
      | some op =>
        rw [hc] at h
        dsimp only at h
        cases hf : finalize_op pd op st.content with
        | error e => rw [hf] at h; exact absurd h (by simp)
        | ok fo =>
          rw [hf] at h
          simp only [List.isEmpty_eq_true, List.append_eq_nil, List.cons_ne_self,
            and_false, if_false] at h
          have : plan = { description := "AI-generated refactoring plan",
                          operations := st.ops ++ [fo] } := by
            cases h; rfl
          subst this
          simp
      | none =>
        rw [hc] at h
        dsimp only at h
        by_cases he : st.ops.isEmpty
        · rw [if_pos he] at h; exact absurd h (by simp)
        · rw [if_neg he] at h
          have : plan = { description := "AI-generated refactoring plan",
                          operations := st.ops } := by
            cases h; rfl
          subst this
          simpa [List.isEmpty_iff] using he
  · intro hall
    unfold parse_multi_file_diff
    rw [parseLinesLoop_no_header pd (rustLines input) _ hall rfl]
    rfl

/-- C10 witness: the header-free input hello newline world satisfies
the hypothesis and parses to the exact error, and a one-operation input
exercises the nonemptiness half. -/
theorem parse_multi_file_diff_never_empty_witness :
    (∀ l ∈ rustLines "hello\nworld", isOpHeaderLine l = false) ∧
    parse_multi_file_diff (fun _ => .ok { hunks := [] }) "hello\nworld" =
      .error "No operations found in refactoring plan" ∧
    ({ description := "AI-generated refactoring plan",
       operations := [FileOperation.delete "old.rs"] } : RefactorPlan).operations ≠ [] :=
  ⟨by decide,
   (parse_multi_file_diff_never_empty (fun _ => .ok { hunks := [] }) "hello\nworld").2 (by decide),
   (parse_multi_file_diff_never_empty (fun _ => .ok { hunks := [] }) "=== DELETE old.rs ===").1
     { description := "AI-generated refactoring plan",
       operations := [FileOperation.delete "old.rs"] } rfl⟩

/-- C4: the single-file fix task copies the original to the sibling
cosmos.bak path before any write, stages only after a successful write
(the trace on success is exactly backup, write, stage), and on a failed
write restores the target from the backup, removes the backup file and
reports an error instead of an applied-fix message; a failed backup
copy aborts with an error before any write. -/
theorem single_fix_backup_write_stage :
    ∀ (fs : Fs) (target : FPath) (newContent orig : String) (writeOk : Bool),
      fsRead fs target = some orig →
      withExtensionCosmosBak target ≠ target →
      (apply_single_fix fs target newContent false writeOk =
        (fs, [], .directFixError "Failed to create backup: I/O error")) ∧
      (writeOk = true →
        (apply_single_fix fs target newContent true writeOk).2.1 =
          [.backupCopy target (withExtensionCosmosBak target), .writeTarget target,
           .stageFile target] ∧
        (apply_single_fix fs target newContent true writeOk).2.2 =
          .directFixApplied target (withExtensionCosmosBak target) ∧
        fsRead (apply_single_fix fs target newContent true writeOk).1 target =
          some newContent ∧
        fsRead (apply_single_fix fs target newContent true writeOk).1
          (withExtensionCosmosBak target) = some orig) ∧
      (writeOk = false →
        (apply_single_fix fs target newContent true writeOk).2.1 =
          [.backupCopy target (withExtensionCosmosBak target), .writeTarget target,
           .restoreFromBackup (withExtensionCosmosBak target) target,
           .removeBackup (withExtensionCosmosBak target)] ∧
        (apply_single_fix fs target newContent true writeOk).2.2 =
          .directFixError "Failed to write fix: I/O error" ∧
        fsRead (apply_single_fix fs target newContent true writeOk).1 target = some orig ∧
        fsRead (apply_single_fix fs target newContent true writeOk).1
          (withExtensionCosmosBak target) = none) := by
  intro fs target newContent orig writeOk hread hne
  refine ⟨?_, ?_, ?_⟩
  · simp [apply_single_fix, hread]
  · intro hw
    subst hw
    refine ⟨?_, ?_, ?_, ?_⟩
    · simp [apply_single_fix, hread]
    · simp [apply_single_fix, hread]
    · simp [apply_single_fix, hread, fsRead_fsWrite_self]
    · simp only [apply_single_fix, hread]
      simp only [Bool.not_true, Bool.false_eq_true, if_false, if_true]
      rw [fsRead_fsWrite_ne _ _ _ _ hne, fsRead_fsWrite_self]
  · intro hw
    subst hw
    refine ⟨?_, ?_, ?_, ?_⟩
    · simp [apply_single_fix, hread]
    · simp [apply_single_fix, hread]
    · simp only [apply_single_fix, hread]
      simp only [Bool.not_true, Bool.false_eq_true, if_false, if_true]
      rw [fsRead_fsRemove_ne _ _ _ (Ne.symm hne), fsRead_fsWrite_self]
    · simp only [apply_single_fix, hread]
      simp only [Bool.not_true, Bool.false_eq_true, if_false, if_true]
      rw [fsRead_fsRemove_self]

/-- C4 witness: the contract applied to a one-file repository. -/
theorem single_fix_backup_write_stage_witness :
    fsRead [("f.rs", "old")] "f.rs" = some "old" ∧
    withExtensionCosmosBak "f.rs" ≠ "f.rs" ∧
    (apply_single_fix [("f.rs", "old")] "f.rs" "new" true false).2.2 =
      .directFixError "Failed to write fix: I/O error" ∧
    fsRead (apply_single_fix [("f.rs", "old")] "f.rs" "new" true false).1 "f.rs" = some "old" :=
  ⟨rfl, by decide,
   ((single_fix_backup_write_stage [("f.rs", "old")] "f.rs" "new" "old" false rfl
      (by decide)).2.2 rfl).2.1,
   ((single_fix_backup_write_stage [("f.rs", "old")] "f.rs" "new" "old" false rfl
      (by decide)).2.2 rfl).2.2.1⟩

/-- C5 counterexample: after a reset that clears only the summaries
cache (suggestions kept), with AI enabled and files to process, the
summary task is dispatched but pending_suggestions_on_init is left
false, refuting the claim that the pending flag is set whenever file
summaries still need generation after a reset. -/
theorem pending_flag_not_set_on_summaries_only_reset :
    (reset_dispatch true false true 5).1 = false ∧
    (reset_dispatch true false true 5).2 = [SpawnedTask.summaryGen] := by
  decide

/-- C5 amended: whenever summaries still need generation, no
suggestion-generation task is dispatched immediately, neither at
startup nor by a reset; the pending flag is set whenever suggestion
generation is also wanted (always at startup, and at a reset exactly
when the suggestions cache was also cleared); and the suggestion task
is spawned by the SummariesReady handler exactly when the flag is set
and AI is still enabled, the flag being cleared then. -/
theorem suggestions_deferred_until_summaries_ready :
    ∀ (files : List FPath) (ai needsSuggestions aiStill pending : Bool) (total : Nat),
      (files ≠ [] → startup_dispatch true files = (true, [SpawnedTask.summaryGen])) ∧
      (SpawnedTask.suggestionGen ∈ (startup_dispatch ai files).2 → files = []) ∧
      SpawnedTask.suggestionGen ∉ (reset_dispatch true needsSuggestions ai total).2 ∧
      (total > 0 → reset_dispatch true needsSuggestions true total =
        (needsSuggestions, [SpawnedTask.summaryGen])) ∧
      ((summaries_ready_dispatch pending aiStill).2 =
        if pending && aiStill then [SpawnedTask.suggestionGen] else []) ∧
      (summaries_ready_dispatch true aiStill).1 = false := by
  intro files ai needsSuggestions aiStill pending total
  refine ⟨?_, ?_, ?_, ?_, ?_, ?_⟩
  · intro hne
    cases files with
    | nil => exact absurd rfl hne
    | cons x xs => simp [startup_dispatch]
  · intro hmem
    cases files with
    | nil => rfl
    | cons x xs =>
      cases ai <;> simp [startup_dispatch] at hmem
  · cases ai <;> by_cases ht : total > 0 <;>
      simp [reset_dispatch, ht]
  · intro ht
    simp [reset_dispatch, ht]
  · cases pending <;> cases aiStill <;> simp [summaries_ready_dispatch]
  · cases aiStill <;> simp [summaries_ready_dispatch]

/-- C5 witness: the deferral contract at concrete inputs. -/
theorem suggestions_deferred_until_summaries_ready_witness :
    startup_dispatch true ["a.rs"] = (true, [SpawnedTask.summaryGen]) ∧
    reset_dispatch true true true 2 = (true, [SpawnedTask.summaryGen]) ∧
    (summaries_ready_dispatch true true).2 = [SpawnedTask.suggestionGen] :=
  ⟨(suggestions_deferred_until_summaries_ready ["a.rs"] true true true true 2).1 (by decide),
   (suggestions_deferred_until_summaries_ready ["a.rs"] true true true true 2).2.2.2.1
     (by decide),
   by simpa using
     (suggestions_deferred_until_summaries_ready ["a.rs"] true true true true 2).2.2.2.2.1⟩

/-- C6 counterexample: in the workflow-mode ship task a PR-creation
failure after a successful commit and push sends exactly the raw error
string, which does not contain the create-the-PR-manually instruction
the claim requires; nothing after the failed step runs and the commit
and push calls stand. -/
theorem ship_workflow_pr_failure_raw_error :
    (ship_workflow_task (.ok ()) (.ok ()) (.error "boom")).1 =
      [.commit, .push, .createPR] ∧
    (ship_workflow_task (.ok ()) (.ok ()) (.error "boom")).2 =
      [.progress .committing, .progress .pushing, .progress .creatingPR,
       .error "boom"] ∧
    ¬ ("Create PR manually".toList <:+: "boom".toList) :=
  ⟨rfl, rfl, by decide⟩

theorem manually_instruction_infix (e : String) :
    "Create PR manually".toList <:+:
      ("Pushed, but PR creation failed: " ++ e ++ ". Create PR manually.").toList := by
  refine ⟨"Pushed, but PR creation failed: ".toList ++ e.toList ++ ". ".toList,
          ".".toList, ?_⟩
  have happ : ∀ x y : String, (x ++ y).toList = x.toList ++ y.toList := fun _ _ => rfl
  rw [happ, happ]
  simp only [List.append_assoc, List.append_cancel_left_eq]
  decide

/-- C6 amended: both ship tasks execute commit, push and PR creation
strictly in that order, halt at the first failing step without invoking
any later operation, and never invoke an operation that undoes a
completed step (the call trace on a PR failure is exactly commit, push,
createPR); the legacy ship dialog additionally tells the user to create
the PR manually on a PR-creation failure, while the workflow-mode task
surfaces the raw error only. -/
theorem ship_sequence_order_and_halt :
    ∀ (e url : String) (pushRes : Except String Unit) (prRes : Except String String)
      (srs : List (FPath × Except String Unit)) (sne : Option Bool),
      ship_workflow_task (.error e) pushRes prRes =
        ([.commit], [.progress .committing, .error e]) ∧
      ship_workflow_task (.ok ()) (.error e) prRes =
        ([.commit, .push], [.progress .committing, .progress .pushing, .error e]) ∧
      ship_workflow_task (.ok ()) (.ok ()) (.ok url) =
        ([.commit, .push, .createPR],
         [.progress .committing, .progress .pushing, .progress .creatingPR,
          .complete url]) ∧
      ship_workflow_task (.ok ()) (.ok ()) (.error e) =
        ([.commit, .push, .createPR],
         [.progress .committing, .progress .pushing, .progress .creatingPR,
          .error e]) ∧
      ((ship_stage_loop srs).2 = none → sne ≠ some false →
        ship_dialog_task srs sne (.ok ()) (.ok ()) (.error e) =
          ((ship_stage_loop srs).1 ++ [.commit, .push, .createPR],
           [.progress .pushing, .progress .creatingPR,
            .error ("Pushed, but PR creation failed: " ++ e ++ ". Create PR manually.")])) ∧
      ("Create PR manually".toList <:+:
        ("Pushed, but PR creation failed: " ++ e ++ ". Create PR manually.").toList) := by
  intro e url pushRes prRes srs sne
  refine ⟨rfl, rfl, rfl, rfl, ?_, manually_instruction_infix e⟩
  intro h1 h2
  simp [ship_dialog_task, h1, h2]

/-- C6 witness: the ship contract at concrete inputs. -/
theorem ship_sequence_order_and_halt_witness :
    ship_dialog_task [("f.rs", .ok ())] (some true) (.ok ()) (.ok ()) (.error "x") =
      ([.stage "f.rs", .commit, .push, .createPR],
       [.progress .pushing, .progress .creatingPR,
        .error "Pushed, but PR creation failed: x. Create PR manually."]) ∧
    ship_workflow_task (.error "x") (.ok ()) (.ok "u") =
      ([.commit], [.progress .committing, .error "x"]) :=
  ⟨by
    have h := (ship_sequence_order_and_halt "x" "u" (.ok ()) (.ok "u")
      [("f.rs", .ok ())] (some true)).2.2.2.2.1 rfl (by decide)
    simpa [ship_stage_loop] using h,
   (ship_sequence_order_and_halt "x" "u" (.ok ()) (.ok "u")
      [("f.rs", .ok ())] (some true)).1⟩

/-- C9 counterexample: a preview result arriving after the user has
navigated away from Verify (workflow back in Suggestions) is not
discarded silently: the handler opens the legacy fix-preview overlay
with it, and a stale preview error still surfaces a toast. -/
theorem stale_preview_result_surfaced :
    (handle_preview_ready { workflow_step := .suggestions } 1 "f.rs" "s" "p").overlay =
      AppOverlay.fixPreview 1 "f.rs" "s" "p" ∧
    ({ workflow_step := WorkflowStep.suggestions : AppState }).overlay =
      AppOverlay.noOverlay ∧
    (handle_preview_error { workflow_step := .suggestions } "boom").toast =
      some "Preview error: boom" := by
  refine ⟨by decide, by decide, ?_⟩
  show some ("Preview error: " ++ truncate "boom" 80) = some "Preview error: boom"
  rfl

/-- C9 amended: every background-result handler checks the workflow
state before applying the effect to the active stage: a preview
arriving outside Verify leaves the Verify state untouched and a
verification result arriving outside Review leaves the Review state
untouched; inside the matching stage the result is installed. The
stale result is however not silently dropped: a stale preview is
routed to the legacy fix-preview overlay and a stale preview error
still shows an error toast. -/
theorem stale_results_checked_before_applying :
    ∀ (st : AppState) (sid : Nat) (fp : FPath) (summary preview e rsum : String)
      (findings : List String),
      (st.workflow_step ≠ .verify →
        (handle_preview_ready st sid fp summary preview).verify_state = st.verify_state ∧
        (handle_preview_ready st sid fp summary preview).overlay =
          AppOverlay.fixPreview sid fp summary preview) ∧
      (st.workflow_step = .verify →
        (handle_preview_ready st sid fp summary preview).verify_state.preview =
          some preview ∧
        (handle_preview_ready st sid fp summary preview).overlay = st.overlay) ∧
      (st.workflow_step ≠ .review →
        (handle_verification_complete st findings rsum).review_state = st.review_state) ∧
      (st.workflow_step = .review →
        (handle_verification_complete st findings rsum).review_state =
          { findings := findings, summary := rsum, reviewing := false }) ∧
      (st.workflow_step ≠ .verify →
        (handle_preview_error st e).workflow_step = st.workflow_step ∧
        (handle_preview_error st e).toast =
          some ("Preview error: " ++ truncate e 80)) := by
  intro st sid fp summary preview e rsum findings
  refine ⟨?_, ?_, ?_, ?_, ?_⟩
  · intro h
    simp [handle_preview_ready, show_fix_preview, h]
  · intro h
    simp [handle_preview_ready, set_verify_preview, h]
  · intro h
    simp only [handle_verification_complete, if_neg h]
    cases hov : st.overlay <;> simp [set_verification_findings, hov]
  · intro h
    simp [handle_verification_complete, set_review_findings, h]
  · intro h
    simp [handle_preview_error, show_toast, h]

/-- C9 witness: the stage checks at concrete states. -/
theorem stale_results_checked_before_applying_witness :
    (handle_preview_ready { workflow_step := .verify } 1 "f.rs" "s" "p").verify_state.preview =
      some "p" ∧
    (handle_verification_complete { workflow_step := .verify } ["finding"] "r").review_state =
      ({} : ReviewState) :=
  ⟨((stale_results_checked_before_applying { workflow_step := .verify } 1 "f.rs" "s" "p"
      "e" "r" ["finding"]).2.1 rfl).1,
   (stale_results_checked_before_applying { workflow_step := .verify } 1 "f.rs" "s" "p"
      "e" "r" ["finding"]).2.2.1 (by decide)⟩

theorem alookup_mem {b : Type} :
    ∀ (l : List (FPath × b)) (p : FPath) (v : b),
      alookup l p = some v → (p, v) ∈ l := by
  intro l
  induction l with
  | nil => intro p v h; simp [alookup] at h
  | cons e rest ih =>
    intro p v h
    obtain ⟨q, w⟩ := e
    by_cases hq : q = p
    · subst hq
      simp [alookup] at h
      simp [h]
    · simp [alookup, hq] at h
      simp [ih p v h]

theorem alookup_eq_of_mem_nodup {b : Type} :
    ∀ (l : List (FPath × b)) (p : FPath) (v : b),
      (l.map Prod.fst).Nodup → (p, v) ∈ l → alookup l p = some v := by
  intro l
  induction l with
  | nil => intro p v _ h; simp at h
  | cons e rest ih =>
    intro p v hnd hmem
    obtain ⟨q, w⟩ := e
    simp only [List.map_cons, List.nodup_cons] at hnd
    rcases List.mem_cons.mp hmem with heq | htail
    · cases heq
      simp [alookup]
    · have hq : q ≠ p := by
        intro hqp
        subst hqp
        exact hnd.1 (List.mem_map.mpr ⟨(q, v), htail, rfl⟩)
      simp [alookup, hq]
      exact ih p v hnd.2 htail

/-- C7: for a file whose current fingerprint equals the one stored with
its cached summary, needsRegeneration is false, the file is excluded
from the set of files needing generation (and hence from the set the
startup dispatch hands to the generation task, under either value of
the summarize-changed-only option), and its cached summary is returned
among the valid summaries. -/
theorem unchanged_fingerprint_uses_cache :
    ∀ (cache : LlmSummaryCache) (hashes : FileHashes) (p : FPath) (e : SummaryEntry)
      (h : String) (sco : Bool) (wanted : List FPath),
      (hashes.map Prod.fst).Nodup →
      alookup cache p = some e →
      alookup hashes p = some h →
      e.content_hash = h →
      needs_regeneration cache p h = false ∧
      p ∉ get_files_needing_summary cache hashes ∧
      (p, e.summary) ∈ get_all_valid_summaries cache hashes ∧
      p ∉ startup_generation_files cache hashes sco wanted := by
  intro cache hashes p e h sco wanted hnd hcache hhash heq
  have hneeds : needs_regeneration cache p h = false := by
    simp [needs_regeneration, hcache, heq]
  have hnotneeding : p ∉ get_files_needing_summary cache hashes := by
    intro hmem
    simp only [get_files_needing_summary, List.mem_filterMap] at hmem
    obtain ⟨⟨q, h2⟩, hqmem, hfq⟩ := hmem
    by_cases hn : needs_regeneration cache q h2 = true
    · rw [if_pos hn] at hfq
      have hqp : q = p := by simpa using hfq
      subst hqp
      have : h2 = h := by
        have := alookup_eq_of_mem_nodup hashes q h2 hnd hqmem
        rw [hhash] at this
        simpa using this.symm
      subst this
      rw [hneeds] at hn
      exact absurd hn (by simp)
    · rw [if_neg hn] at hfq
      exact absurd hfq (by simp)
  refine ⟨hneeds, hnotneeding, ?_, ?_⟩
  · have hmem : (p, e) ∈ cache := alookup_mem cache p e hcache
    simp only [get_all_valid_summaries, List.mem_filterMap]
    refine ⟨(p, e), hmem, ?_⟩
    simp [hhash, heq]
  · intro hmem
    cases sco with
    | true =>
      simp only [startup_generation_files, if_true, List.mem_filter] at hmem
      exact hnotneeding hmem.1
    | false =>
      simp only [startup_generation_files, Bool.false_eq_true, if_false] at hmem
      exact hnotneeding hmem

/-- C7 witness: the cache contract at a concrete cache and hash map. -/
theorem unchanged_fingerprint_uses_cache_witness :
    needs_regeneration [("f.rs", { summary := "S", content_hash := "h1" })] "f.rs" "h1" =
      false ∧
    ("f.rs" : FPath) ∉
      get_files_needing_summary [("f.rs", { summary := "S", content_hash := "h1" })]
        [("f.rs", "h1"), ("g.rs", "h2")] ∧
    (("f.rs", "S") : FPath × String) ∈
      get_all_valid_summaries [("f.rs", { summary := "S", content_hash := "h1" })]
        [("f.rs", "h1"), ("g.rs", "h2")] :=
  ⟨(unchanged_fingerprint_uses_cache
      [("f.rs", { summary := "S", content_hash := "h1" })]
      [("f.rs", "h1"), ("g.rs", "h2")] "f.rs" { summary := "S", content_hash := "h1" }
      "h1" false [] (by decide) rfl rfl rfl).1,
   (unchanged_fingerprint_uses_cache
      [("f.rs", { summary := "S", content_hash := "h1" })]
      [("f.rs", "h1"), ("g.rs", "h2")] "f.rs" { summary := "S", content_hash := "h1" }
      "h1" false [] (by decide) rfl rfl rfl).2.1,
   (unchanged_fingerprint_uses_cache
      [("f.rs", { summary := "S", content_hash := "h1" })]
      [("f.rs", "h1"), ("g.rs", "h2")] "f.rs" { summary := "S", content_hash := "h1" }
      "h1" false [] (by decide) rfl rfl rfl).2.2.1⟩
